import Mathlib

/-!
Verification of the transactional execution core of convex-backend:
the OCC mutation retry loop (crates/application) and the sandboxed test
execution environment (crates/simulation, test_helpers/js_client/environment.rs).

The environment is embedded directly from the source file
`src/crates/simulation/src/test_helpers/js_client/environment.rs`.
External collaborators (the `rand_chacha` crate's generator, tokio's
`JoinSet` and simulated clock, v8 promise resolvers) are modelled at their
interface boundary: the ChaCha state is a seed plus a word position with an
arbitrary deterministic output function, a resolver is an opaque handle, and
the `JoinSet` of sleeps completes in duration order (simulated time).
-/

namespace Convex

/-- Embedding of `rand_chacha::ChaCha12Rng` at its interface: a deterministic
stream cipher state, identified by its 32-byte seed and the position in the
key stream. The actual output words are an arbitrary pure function of
`(seed, counter)`, supplied as a parameter where needed. -/
structure ChaCha12Rng where
  seed : List Nat
  counter : Nat
  deriving Repr, DecidableEq

/-- Embedding of `ChaCha12Rng::from_seed`: start of the key stream for a seed. -/
def chachaFromSeed (seed : List Nat) : ChaCha12Rng :=
  { seed := seed, counter := 0 }

/-- The seed `[0; 32]` used by `TestEnvironment::new` (environment.rs line 50). -/
def zeroSeed : List Nat := List.replicate 32 0

/-- Embedding of the `TestEnvironment` struct (environment.rs lines 37-44).
`rt_clock` is the `TestRuntime`'s simulated unix timestamp in nanoseconds
(the `rt` field, modelled at its interface); `timers` is the `JoinSet` of
spawned sleeps as (duration, timer id) pairs; `timer_resolvers` is the
`BTreeMap<usize, v8::Global<v8::PromiseResolver>>` with resolvers modelled
as opaque `Nat` handles. -/
structure TestEnvironment where
  rt_clock : Nat
  rng : ChaCha12Rng
  next_timer_id : Nat
  timers : List (Nat × Nat)
  timer_resolvers : List (Nat × Nat)
  deriving Repr, DecidableEq

namespace TestEnvironment

/-- Embedding of `TestEnvironment::new` (environment.rs lines 47-57): the rng
is seeded once, here, with the all-zero seed; the timer id counter starts at
0; the timer tables start empty. The runtime handle carries the host clock
reading `c`. -/
def new (c : Nat) : TestEnvironment :=
  { rt_clock := c
    rng := chachaFromSeed zeroSeed
    next_timer_id := 0
    timers := []
    timer_resolvers := [] }

end TestEnvironment

/-- Embedding of `BTreeMap::insert` on an association list: replace the
binding for `k` if present, otherwise append it. -/
def btreeInsert (k v : Nat) : List (Nat × Nat) → List (Nat × Nat)
  | [] => [(k, v)]
  | (k', v') :: rest =>
    if k = k' then (k, v) :: rest else (k', v') :: btreeInsert k v rest

/-- Embedding of `BTreeMap::get` on an association list. -/
def btreeLookup (k : Nat) : List (Nat × Nat) → Option Nat
  | [] => none
  | (k', v) :: rest => if k = k' then some v else btreeLookup k rest

/-- Embedding of `BTreeMap::remove` on an association list: drop the first
binding for `k`. -/
def btreeErase (k : Nat) : List (Nat × Nat) → List (Nat × Nat)
  | [] => []
  | (k', v) :: rest => if k = k' then rest else (k', v) :: btreeErase k rest

/-- Keys of an association list. -/
def alKeys (l : List (Nat × Nat)) : List Nat := l.map Prod.fst

/-- Embedding of `isolate::environment::AsyncOpRequest` at the granularity the
test environment distinguishes (environment.rs lines 131-149): the
`Sleep { name, until }` variant, with `until` a unix timestamp in
nanoseconds, and every other variant collapsed into `other` since
`start_async_op` treats them all alike. -/
inductive AsyncOpRequest where
  | sleep (name : String) (until_ : Nat)
  | other (desc : String)
  deriving Repr, DecidableEq

/-- Embedding of `TestEnvironment::start_async_op` (environment.rs lines
126-151). For `Sleep { until, .. }`: allocate the next timer id, compute the
remaining duration `until - now` against the runtime clock (zero when `until`
is not in the future, mirroring `if until > now { until - now } else
{ Duration::ZERO }`), spawn the sleep into the `JoinSet`, and record the
resolver under the new id. Every other request kind is logged and dropped.
Both paths return `Ok(())`. -/
def start_async_op (e : TestEnvironment) (request : AsyncOpRequest)
    (resolver : Nat) : Except String TestEnvironment :=
  match request with
  | .sleep _ until_ =>
    let id := e.next_timer_id
    let now := e.rt_clock
    let duration := if now < until_ then until_ - now else 0
    .ok { e with
            next_timer_id := id + 1
            timers := e.timers ++ [(duration, id)]
            timer_resolvers := btreeInsert id resolver e.timer_resolvers }
  | .other _ => .ok e

/-- Embedding of `TestEnvironment::start_async_syscall` (environment.rs lines
82-90): the request is logged (`tracing::info!`) and dropped; the resolver is
discarded and the state is untouched; the return value is `Ok(())`. -/
def start_async_syscall (e : TestEnvironment) (name : String) (args : Nat)
    (resolver : Nat) : Except String TestEnvironment :=
  .ok e

/-- Embedding of `TestEnvironment::unix_timestamp` (environment.rs lines
107-109): `Ok(self.rt.unix_timestamp())`, a read of the runtime's clock. -/
def unix_timestamp (e : TestEnvironment) : Except String Nat :=
  .ok e.rt_clock

/-- First element with minimal first component (the sleep that finishes
soonest; among equal durations, the earliest spawned, matching simulated-time
completion order). -/
def minBy1 : List (Nat × Nat) → Option (Nat × Nat)
  | [] => none
  | t :: ts =>
    match minBy1 ts with
    | none => some t
    | some m => some (if t.1 ≤ m.1 then t else m)

/-- Embedding of `JoinSet::join_next` on the set of spawned sleeps: `none`
exactly when the set is empty, otherwise the completed sleep (the one with
the least remaining duration under the simulated clock) together with the
remaining set. -/
def joinNext (l : List (Nat × Nat)) : Option ((Nat × Nat) × List (Nat × Nat)) :=
  match minBy1 l with
  | none => none
  | some m => some (m, l.erase m)

/-- Result of one call to `TestEnvironment::next_timer`:
`pendingForever` embeds `future::pending().await` (the call never returns),
`ok` carries the delivered resolver and the environment after removal, and
`error` embeds the `anyhow::anyhow!` failure path. -/
inductive NextTimerOutcome where
  | pendingForever
  | ok (resolver : Nat) (e : TestEnvironment)
  | error (msg : String)
  deriving Repr, DecidableEq

/-- Embedding of `TestEnvironment::next_timer` (environment.rs lines 163-173):
await the next completed sleep from the `JoinSet` (suspending forever when it
is empty), remove that timer id's resolver from `timer_resolvers`, failing
with "Timer resolver not found" when absent, and deliver the resolver. -/
def next_timer (e : TestEnvironment) : NextTimerOutcome :=
  match joinNext e.timers with
  | none => .pendingForever
  | some (t, rest) =>
    match btreeLookup t.2 e.timer_resolvers with
    | none => .error "Timer resolver not found"
    | some r =>
      .ok r { e with
                timers := rest
                timer_resolvers := btreeErase t.2 e.timer_resolvers }

/-- One interaction of the running function (one attempt's content) with the
environment's capability surface: a draw from the `rng()` capability, a read
of `unix_timestamp`, the issuance of an async op or async syscall, or the
retrieval of the next completed timer via `next_timer` (the only mediated
way time passes; under simulated time the clock auto-advances to the
completed sleep's deadline). -/
inductive Event where
  | rngDraw
  | readClock
  | startSleep (name : String) (until_ : Nat) (resolver : Nat)
  | startOther (desc : String) (resolver : Nat)
  | asyncSyscall (name : String) (args : Nat) (resolver : Nat)
  | timerComplete
  deriving Repr, DecidableEq

/-- Observable outcome of one `Event`. -/
inductive Output where
  | rngValue (n : Nat)
  | clockValue (n : Nat)
  | opStarted
  | syscallIgnored
  | timerDelivered (resolver : Nat)
  | timerPendingForever
  | timerFailed (msg : String)
  deriving Repr, DecidableEq

/-- Does the event advance the environment's logical clock? Only a mediated
timer completion does. -/
def advancesClock : Event → Bool
  | .timerComplete => true
  | _ => false

/-- One step of the environment under an event. `block` is the ChaCha output
function (the external cipher, a pure function of seed and stream position):
a draw through the `rng()` capability (environment.rs lines 103-105) emits
the next key-stream word and advances the position. `timerComplete` follows
`next_timer`, additionally advancing the simulated clock to the completed
sleep's deadline (tokio auto-advancing test time, modelled at the runtime's
interface). -/
def step (block : List Nat → Nat → Nat) :
    Event → TestEnvironment → TestEnvironment × Output
  | .rngDraw, e =>
    ({ e with rng := { e.rng with counter := e.rng.counter + 1 } },
      .rngValue (block e.rng.seed e.rng.counter))
  | .readClock, e =>
    match unix_timestamp e with
    | .ok n => (e, .clockValue n)
    | .error _ => (e, .clockValue 0)
  | .startSleep name until_ r, e =>
    match start_async_op e (.sleep name until_) r with
    | .ok e' => (e', .opStarted)
    | .error _ => (e, .opStarted)
  | .startOther d r, e =>
    match start_async_op e (.other d) r with
    | .ok e' => (e', .opStarted)
    | .error _ => (e, .opStarted)
  | .asyncSyscall nm a r, e =>
    match start_async_syscall e nm a r with
    | .ok e' => (e', .syscallIgnored)
    | .error _ => (e, .syscallIgnored)
  | .timerComplete, e =>
    match joinNext e.timers with
    | none => (e, .timerPendingForever)
    | some (t, rest) =>
      match btreeLookup t.2 e.timer_resolvers with
      | none => (e, .timerFailed "Timer resolver not found")
      | some r =>
        ({ e with
             rt_clock := e.rt_clock + t.1
             timers := rest
             timer_resolvers := btreeErase t.2 e.timer_resolvers },
          .timerDelivered r)

/-- Run one attempt's content (a list of events) through the environment,
collecting the outputs. -/
def run (block : List Nat → Nat → Nat) :
    List Event → TestEnvironment → List Output × TestEnvironment
  | [], e => ([], e)
  | ev :: evs, e =>
    let (e', out) := step block ev e
    let (outs, e'') := run block evs e'
    (out :: outs, e'')

/-!
The OCC mutation retry engine. Its implementation (the `mutation_udf` loop
of crates/application) is not among the source files; only its tests
(src/crates/application/src/tests/mutation.rs) are. The definitions below are
therefore modelled from the spec (sections 4.1, 8) and validated against
those tests' scenarios.
-/

/-- Modelled from the spec: the observable outcome of `execute(request)` for a
mutation — success with a result value after a number of attempts, or the
OCC-exhausted error after the retry budget is spent (spec 4.1, 7). The
attempt count records how many complete executions the engine made. -/
inductive MutationOutcome where
  | success (value : Nat) (attempts : Nat)
  | occExhausted (attempts : Nat)
  deriving Repr, DecidableEq

/-- Modelled from the spec: a mutation over a single table, described by its
read and write sets (spec 3, 4.1). All mutations considered here insert one
document (their write set is one fresh document key, disjoint from every
other commit's writes); `readsWholeTable` records whether the read set is the
whole-table range (the insert-and-count mutation counts every document) or
only the table's existence (the plain insert mutation). `result` is the
returned value as a function of the snapshot's document count. -/
structure MutationSpec where
  readsWholeTable : Bool
  result : Nat → Nat
  deriving Inhabited

/-- Modelled from the spec: the `basic:insertAndCount` mutation of the tests —
reads the whole table (a range scan to count), inserts one document, returns
the count including its own insert. -/
def insertAndCount : MutationSpec :=
  { readsWholeTable := true, result := fun snap => snap + 1 }

/-- Modelled from the spec: the `basic:insertObject` mutation of the tests —
reads only the (already existing) table, inserts one fresh document, returns
the inserted object (an opaque value, here 0). -/
def insertObject : MutationSpec :=
  { readsWholeTable := false, result := fun _ => 0 }

/-- Modelled from the spec: the OCC retry loop of the mutation executor
(crates/application, not under src/). `intf i` is the number of concurrent
insert commits that land while the engine sits at the
"retry_mutation_loop_start" pause point of attempt `i` (each such commit
writes one fresh document into the table). Each iteration takes a snapshot
(`docs` documents), reaches the pause point, executes the mutation against
the snapshot, then commits with the check-then-write: the commit conflicts
exactly when a commit since the snapshot intersects the mutation's read set —
for these mutations, when the mutation reads the whole table and at least one
concurrent insert landed. On conflict the attempt is discarded and the loop
retries with the remaining budget `fuel`; when the budget is spent the engine
fails with OCC-exhausted. The pause point's placement realizes the spec's
guarantee that writes committed while paused are visible as conflicts of the
paused attempt (spec 4.1, scenarios 2-4). -/
def runAttempts (m : MutationSpec) (intf : Nat → Nat) :
    Nat → Nat → Nat → MutationOutcome
  | 0, idx, docs =>
    if m.readsWholeTable && intf idx != 0 then .occExhausted (idx + 1)
    else .success (m.result docs) (idx + 1)
  | fuel + 1, idx, docs =>
    if m.readsWholeTable && intf idx != 0 then
      runAttempts m intf fuel (idx + 1) (docs + intf idx)
    else .success (m.result docs) (idx + 1)

/-- Modelled from the spec: `execute(request)` of the OCC Retry Engine
(spec 4.1) — run the retry loop with a budget of `maxRetries` retries (so at
most `maxRetries + 1` attempts, spec 3 Retry State) starting from a store
holding `docs` documents. -/
def execute (m : MutationSpec) (intf : Nat → Nat) (maxRetries docs : Nat) :
    MutationOutcome :=
  runAttempts m intf maxRetries 0 docs

/-- The ids of the sleeps currently spawned in the `JoinSet`. -/
def timerIds (e : TestEnvironment) : List Nat := e.timers.map Prod.snd

/-- Well-formedness of the environment's timer state, maintained by
construction in environment.rs: every spawned sleep's id and every resolver
key was allocated from the `next_timer_id` counter (so is below its current
value), and neither table holds two entries for one id. -/
def Wf (e : TestEnvironment) : Prop :=
  (∀ t ∈ e.timers, t.2 < e.next_timer_id) ∧
  (timerIds e).Nodup ∧
  (∀ kv ∈ e.timer_resolvers, kv.1 < e.next_timer_id) ∧
  (alKeys e.timer_resolvers).Nodup

instance (e : TestEnvironment) : Decidable (Wf e) := by
  unfold Wf
  infer_instance

/-! Helper lemmas about the association-list embedding of `BTreeMap`. -/

theorem btreeLookup_insert_self (k v : Nat) (l : List (Nat × Nat)) :
    btreeLookup k (btreeInsert k v l) = some v := by
  induction l with
  | nil => simp [btreeInsert, btreeLookup]
  | cons kv rest ih =>
    obtain ⟨k', v'⟩ := kv
    by_cases h : k = k'
    · simp [btreeInsert, btreeLookup, h]
    · simp [btreeInsert, btreeLookup, h, ih]

theorem btreeLookup_eq_none_of_not_mem (k : Nat) (l : List (Nat × Nat))
    (h : k ∉ alKeys l) : btreeLookup k l = none := by
  induction l with
  | nil => simp [btreeLookup]
  | cons kv rest ih =>
    obtain ⟨k', v'⟩ := kv
    simp [alKeys] at h
    simp [btreeLookup, h.1, ih (by simp [alKeys, h.2])]

theorem mem_btreeInsert (k v : Nat) (l : List (Nat × Nat)) (kv : Nat × Nat)
    (h : kv ∈ btreeInsert k v l) : kv = (k, v) ∨ kv ∈ l := by
  induction l with
  | nil => simp [btreeInsert] at h; simp [h]
  | cons u rest ih =>
    obtain ⟨k', v'⟩ := u
    by_cases hk : k = k'
    · simp [btreeInsert, hk] at h
      rcases h with h | h
      · left; simp [h, hk]
      · right; simp [h]
    · simp [btreeInsert, hk] at h
      rcases h with h | h
      · right; simp [h]
      · rcases ih h with h' | h'
        · left; exact h'
        · right; simp [h']

theorem mem_keys_btreeInsert (k v x : Nat) (l : List (Nat × Nat))
    (h : x ∈ alKeys (btreeInsert k v l)) : x = k ∨ x ∈ alKeys l := by
  simp [alKeys] at h
  obtain ⟨b, hb⟩ := h
  rcases mem_btreeInsert k v l (x, b) hb with h' | h'
  · left; exact congrArg Prod.fst h'
  · right; simp [alKeys]; exact ⟨b, h'⟩

theorem nodup_keys_btreeInsert (k v : Nat) (l : List (Nat × Nat))
    (h : (alKeys l).Nodup) : (alKeys (btreeInsert k v l)).Nodup := by
  induction l with
  | nil => simp [btreeInsert, alKeys]
  | cons u rest ih =>
    obtain ⟨k', v'⟩ := u
    simp [alKeys] at h
    by_cases hk : k = k'
    · simpa [btreeInsert, hk, alKeys] using h
    · have htl := ih h.2
      simp [btreeInsert, hk, alKeys] at htl ⊢
      refine ⟨fun b hb => ?_, htl⟩
      rcases mem_btreeInsert k v rest (k', b) hb with h' | h'
      · exact hk (congrArg Prod.fst h').symm
      · exact h.1 b h'

theorem mem_btreeErase (k : Nat) (l : List (Nat × Nat)) (kv : Nat × Nat)
    (h : kv ∈ btreeErase k l) : kv ∈ l := by
  induction l with
  | nil => simp [btreeErase] at h
  | cons u rest ih =>
    obtain ⟨k', v'⟩ := u
    by_cases hk : k = k'
    · simp [btreeErase, hk] at h
      simp [h]
    · simp [btreeErase, hk] at h
      rcases h with h | h
      · simp [h]
      · simp [ih h]

theorem nodup_keys_btreeErase (k : Nat) (l : List (Nat × Nat))
    (h : (alKeys l).Nodup) : (alKeys (btreeErase k l)).Nodup := by
  induction l with
  | nil => simp [btreeErase, alKeys]
  | cons u rest ih =>
    obtain ⟨k', v'⟩ := u
    simp [alKeys] at h
    by_cases hk : k = k'
    · simpa [btreeErase, hk, alKeys] using h.2
    · have htl := ih h.2
      simp [btreeErase, hk, alKeys] at htl ⊢
      refine ⟨fun b hb => h.1 b (mem_btreeErase k rest (k', b) hb), htl⟩

theorem btreeLookup_erase_self (k : Nat) (l : List (Nat × Nat))
    (h : (alKeys l).Nodup) : btreeLookup k (btreeErase k l) = none := by
  induction l with
  | nil => simp [btreeErase, btreeLookup]
  | cons u rest ih =>
    obtain ⟨k', v'⟩ := u
    simp [alKeys] at h
    by_cases hk : k = k'
    · subst hk
      simp only [btreeErase, if_pos rfl]
      exact btreeLookup_eq_none_of_not_mem k rest
        (by simp [alKeys]; intro b hb; exact h.1 b hb)
    · simp [btreeErase, btreeLookup, hk, ih h.2]

/-! Helper lemmas about `minBy1` and `joinNext`. -/

theorem minBy1_mem {l : List (Nat × Nat)} {m : Nat × Nat}
    (h : minBy1 l = some m) : m ∈ l := by
  induction l with
  | nil => simp [minBy1] at h
  | cons t ts ih =>
    simp only [minBy1] at h
    cases hm : minBy1 ts with
    | none =>
      rw [hm] at h
      simp at h
      simp [h]
    | some m' =>
      rw [hm] at h
      simp at h
      by_cases hle : t.1 ≤ m'.1
      · simp [hle] at h; simp [h]
      · simp [hle] at h
        subst h
        simp [ih hm]

theorem minBy1_eq_none_iff (l : List (Nat × Nat)) :
    minBy1 l = none ↔ l = [] := by
  cases l with
  | nil => simp [minBy1]
  | cons t ts =>
    simp only [minBy1]
    cases minBy1 ts <;> simp

theorem joinNext_eq_none_iff (l : List (Nat × Nat)) :
    joinNext l = none ↔ l = [] := by
  unfold joinNext
  cases hm : minBy1 l with
  | none => simp [(minBy1_eq_none_iff l).mp hm]
  | some m =>
    simp
    intro h
    rw [h, minBy1] at hm
    exact Option.noConfusion hm

theorem joinNext_some {l : List (Nat × Nat)} {t : Nat × Nat}
    {rest : List (Nat × Nat)} (h : joinNext l = some (t, rest)) :
    t ∈ l ∧ rest = l.erase t := by
  unfold joinNext at h
  cases hm : minBy1 l with
  | none => rw [hm] at h; exact Option.noConfusion h
  | some m =>
    rw [hm] at h
    simp at h
    obtain ⟨h1, h2⟩ := h
    subst h1
    exact ⟨minBy1_mem hm, h2.symm⟩

theorem snd_not_mem_erase {l : List (Nat × Nat)} {t : Nat × Nat}
    (hn : (l.map Prod.snd).Nodup) (ht : t ∈ l) :
    t.2 ∉ (l.erase t).map Prod.snd := by
  induction l with
  | nil => simp at ht
  | cons u us ih =>
    rw [List.map_cons, List.nodup_cons] at hn
    by_cases h : u = t
    · rw [h, List.erase_cons_head]
      rw [← h]
      exact hn.1
    · rw [List.erase_cons_tail (by simp [h])]
      have htus : t ∈ us := by
        rcases List.mem_cons.mp ht with h' | h'
        · exact absurd h'.symm h
        · exact h'
      rw [List.map_cons]
      intro hmem
      rcases List.mem_cons.mp hmem with h2 | h2
      · exact hn.1 (h2 ▸ List.mem_map.mpr ⟨t, htus, rfl⟩)
      · exact ih hn.2 htus h2

/-! Helper lemmas about `step` and `run`. -/

theorem step_rng_seed (block : List Nat → Nat → Nat) (ev : Event)
    (e : TestEnvironment) : ((step block ev e).1).rng.seed = e.rng.seed := by
  cases ev with
  | rngDraw => simp [step]
  | readClock => simp [step, unix_timestamp]
  | startSleep name u r => simp [step, start_async_op]
  | startOther d r => simp [step, start_async_op]
  | asyncSyscall nm a r => simp [step, start_async_syscall]
  | timerComplete =>
    simp only [step]
    cases hj : joinNext e.timers with
    | none => simp [hj]
    | some p =>
      obtain ⟨t, rest⟩ := p
      cases hl : btreeLookup t.2 e.timer_resolvers with
      | none => simp [hj, hl]
      | some r => simp [hj, hl]

theorem step_clock_stable (block : List Nat → Nat → Nat) (ev : Event)
    (e : TestEnvironment) (h : advancesClock ev = false) :
    ((step block ev e).1).rt_clock = e.rt_clock := by
  cases ev <;>
    simp [step, unix_timestamp, start_async_op, start_async_syscall] <;>
    simp [advancesClock] at h

theorem run_rng_seed (block : List Nat → Nat → Nat) (evs : List Event)
    (e : TestEnvironment) : ((run block evs e).2).rng.seed = e.rng.seed := by
  induction evs generalizing e with
  | nil => simp [run]
  | cons ev evs ih =>
    simp only [run]
    rw [ih, step_rng_seed]

theorem run_clock_stable (block : List Nat → Nat → Nat) (evs : List Event)
    (e : TestEnvironment) (h : ∀ ev ∈ evs, advancesClock ev = false) :
    ((run block evs e).2).rt_clock = e.rt_clock := by
  induction evs generalizing e with
  | nil => simp [run]
  | cons ev evs ih =>
    simp only [run]
    rw [ih _ (fun x hx => h x (List.mem_cons_of_mem ev hx)),
      step_clock_stable block ev e (h ev (List.mem_cons_self ev evs))]

theorem step_clock_outputs (block : List Nat → Nat → Nat) (ev : Event)
    (e : TestEnvironment) (n : Nat)
    (h : (step block ev e).2 = Output.clockValue n) : n = e.rt_clock := by
  cases ev with
  | rngDraw => simp [step] at h
  | readClock => simp [step, unix_timestamp] at h; omega
  | startSleep name u r => simp [step, start_async_op] at h
  | startOther d r => simp [step, start_async_op] at h
  | asyncSyscall nm a r => simp [step, start_async_syscall] at h
  | timerComplete =>
    simp only [step] at h
    cases hj : joinNext e.timers with
    | none => simp [hj] at h
    | some p =>
      obtain ⟨t, rest⟩ := p
      cases hl : btreeLookup t.2 e.timer_resolvers with
      | none => simp [hj, hl] at h
      | some r => simp [hj, hl] at h

theorem run_clock_outputs (block : List Nat → Nat → Nat) (evs : List Event)
    (e : TestEnvironment) (h : ∀ ev ∈ evs, advancesClock ev = false) :
    ∀ n, Output.clockValue n ∈ (run block evs e).1 → n = e.rt_clock := by
  induction evs generalizing e with
  | nil => simp [run]
  | cons ev evs ih =>
    intro n hn
    simp only [run, List.mem_cons] at hn
    rcases hn with hn | hn
    · exact step_clock_outputs block ev e n hn.symm
    · have := ih ((step block ev e).1)
        (fun x hx => h x (List.mem_cons_of_mem ev hx)) n hn
      rwa [step_clock_stable block ev e (h ev (List.mem_cons_self ev evs))] at this

/-! Helper lemmas about the OCC retry loop. -/

theorem runAttempts_conflict_all (intf : Nat → Nat) :
    ∀ (fuel idx docs : Nat), (∀ i, idx ≤ i → i ≤ idx + fuel → 0 < intf i) →
      runAttempts insertAndCount intf fuel idx docs =
        MutationOutcome.occExhausted (idx + fuel + 1) := by
  intro fuel
  induction fuel with
  | zero =>
    intro idx docs h
    have h0 : intf idx ≠ 0 := Nat.pos_iff_ne_zero.mp (h idx le_rfl (by omega))
    simp [runAttempts, insertAndCount, h0]
  | succ n ih =>
    intro idx docs h
    have h0 : intf idx ≠ 0 := Nat.pos_iff_ne_zero.mp (h idx le_rfl (by omega))
    have hrec := ih (idx + 1) (docs + intf idx) (fun i h1 h2 => h i (by omega) (by omega))
    simp only [runAttempts]
    rw [if_pos (by simp [insertAndCount, h0]), hrec]
    congr 1
    omega

theorem runAttempts_success_tail (intf : Nat → Nat) :
    ∀ (fuel idx docs : Nat), (∀ i, idx ≤ i → i < idx + fuel → intf i = 1) →
      intf (idx + fuel) = 0 →
      runAttempts insertAndCount intf fuel idx docs =
        MutationOutcome.success (docs + fuel + 1) (idx + fuel + 1) := by
  intro fuel
  induction fuel with
  | zero =>
    intro idx docs h1 h2
    simp only [Nat.add_zero] at h2
    simp [runAttempts, insertAndCount, h2]
  | succ n ih =>
    intro idx docs h1 h2
    have h0 : intf idx = 1 := h1 idx le_rfl (by omega)
    have hrec := ih (idx + 1) (docs + intf idx)
      (fun i ha hb => h1 i (by omega) (by omega))
      (by rw [show idx + 1 + n = idx + (n + 1) by omega]; exact h2)
    rw [h0] at hrec
    simp only [runAttempts]
    rw [if_pos (by simp [insertAndCount, h0]), h0, hrec]
    congr 1 <;> omega

/-! The claims. -/

/-- C1: a mutation request whose read set is invalidated by a conflicting
committed write during every one of its `maxRetries + 1` pauses at the
retry-loop-start point makes exactly `maxRetries + 1` attempts, never more,
and fails with the OCC-exhausted error. -/
theorem occ_exhausted_after_max_retries_plus_one (maxRetries docs : Nat)
    (intf : Nat → Nat) (h : ∀ i, i ≤ maxRetries → 0 < intf i) :
    execute insertAndCount intf maxRetries docs =
      MutationOutcome.occExhausted (maxRetries + 1) := by
  have hrun := runAttempts_conflict_all intf maxRetries 0 docs
    (fun i h1 h2 => h i (by omega))
  simpa [execute] using hrun

/-- Witness for C1: with a retry budget of 2 and one conflicting insert during
each of the 3 pauses, the engine makes exactly 3 attempts and fails with
OCC-exhausted. -/
theorem occ_exhausted_after_max_retries_plus_one_witness :
    execute insertAndCount (fun _ => 1) 2 0 = MutationOutcome.occExhausted 3 :=
  occ_exhausted_after_max_retries_plus_one 2 0 (fun _ => 1)
    (fun _ _ => Nat.one_pos)

/-- C2: a mutation request that conflicts on exactly `maxRetries` consecutive
attempts (one conflicting insert during each of the first `maxRetries`
pauses) and then runs uncontested on its final allowed attempt succeeds, and
the insert-and-count mutation returns a count of `maxRetries + 1`. -/
theorem occ_success_count_max_retries_plus_one (maxRetries : Nat)
    (intf : Nat → Nat) (h1 : ∀ i, i < maxRetries → intf i = 1)
    (h2 : intf maxRetries = 0) :
    execute insertAndCount intf maxRetries 0 =
      MutationOutcome.success (maxRetries + 1) (maxRetries + 1) := by
  have hrun := runAttempts_success_tail intf maxRetries 0 0
    (fun i ha hb => h1 i (by omega)) (by simpa using h2)
  simpa [execute] using hrun

/-- Witness for C2: with a retry budget of 2, conflicting inserts during the
first 2 pauses and none during the third, the mutation succeeds with count 3
after exactly 3 attempts. -/
theorem occ_success_count_max_retries_plus_one_witness :
    execute insertAndCount (fun i => if i < 2 then 1 else 0) 2 0 =
      MutationOutcome.success 3 3 :=
  occ_success_count_max_retries_plus_one 2 (fun i => if i < 2 then 1 else 0)
    (fun i hi => by simp [hi]) (by simp)

/-- C3: mutations touching disjoint keys never conflict. The plain insert
mutation (which reads only the pre-existing table, never the whole-table
range) paused at retry-loop-start succeeds on its first attempt under any
interleaving of concurrent commits, and each of five independent
non-conflicting insert mutations run to completion during the pause also
succeeds on its first attempt, with no OCC errors. -/
theorem disjoint_key_inserts_never_conflict (maxRetries docs : Nat)
    (intf : Nat → Nat) :
    execute insertObject intf maxRetries docs = MutationOutcome.success 0 1 ∧
    (∀ j, j < 5 →
      execute insertObject (fun _ => 0) maxRetries (docs + 1 + j) =
        MutationOutcome.success 0 1) := by
  constructor
  · cases maxRetries <;> simp [execute, runAttempts, insertObject]
  · intro j hj
    cases maxRetries <;> simp [execute, runAttempts, insertObject]

/-- Witness for C3: with a retry budget of 2, a store holding one pre-created
document, and three concurrent commits landing during every pause, the paused
insert succeeds immediately, as does the last of the five concurrent
inserts. -/
theorem disjoint_key_inserts_never_conflict_witness :
    execute insertObject (fun _ => 3) 2 1 = MutationOutcome.success 0 1 ∧
    execute insertObject (fun _ => 0) 2 (1 + 1 + 4) =
      MutationOutcome.success 0 1 := by
  obtain ⟨h1, h2⟩ := disjoint_key_inserts_never_conflict 2 1 (fun _ => 3)
  exact ⟨h1, h2 4 (by omega)⟩

/-- C4: the environment's pseudo-random source is seeded once per attempt (in
`TestEnvironment::new`, with the fixed seed `[0; 32]`), and two executions of
the same attempt content from the same seed, arguments and snapshot content
produce the same random sequence, the same sequence of async operation
issuances, and the same result — for any key-stream function `block` the
external cipher computes. The seed is never re-derived mid-attempt. -/
theorem replay_determinism (block : List Nat → Nat → Nat) (c : Nat)
    (evs : List Event) (e₁ e₂ : TestEnvironment)
    (h₁ : e₁ = TestEnvironment.new c) (h₂ : e₂ = TestEnvironment.new c) :
    (TestEnvironment.new c).rng = chachaFromSeed zeroSeed ∧
    run block evs e₁ = run block evs e₂ ∧
    ((run block evs e₁).2).rng.seed = zeroSeed := by
  subst h₁
  subst h₂
  refine ⟨rfl, rfl, ?_⟩
  rw [run_rng_seed]
  rfl

/-- Witness for C4: two runs of a two-event attempt from freshly constructed
environments agree, and the seed is still the all-zero seed afterwards. -/
theorem replay_determinism_witness :
    (TestEnvironment.new 0).rng = chachaFromSeed zeroSeed ∧
    run (fun _ _ => 0) [Event.rngDraw, Event.readClock] (TestEnvironment.new 0) =
      run (fun _ _ => 0) [Event.rngDraw, Event.readClock]
        (TestEnvironment.new 0) ∧
    ((run (fun _ _ => 0) [Event.rngDraw, Event.readClock]
        (TestEnvironment.new 0)).2).rng.seed = zeroSeed :=
  replay_determinism (fun _ _ => 0) 0 [Event.rngDraw, Event.readClock] _ _
    rfl rfl

/-- C5: issuing a sleep-until-`until_` async operation schedules a wait of
duration `until_` minus the logical clock's reading, clamped to zero when
`until_` is not after the reading, records the resolver in a pending slot
keyed by the freshly allocated id (the next counter value), and bumps the
counter. -/
theorem sleep_op_schedules_clamped_wait (e : TestEnvironment) (name : String)
    (until_ r : Nat) :
    ∃ e', start_async_op e (.sleep name until_) r = .ok e' ∧
      e'.next_timer_id = e.next_timer_id + 1 ∧
      e'.timers = e.timers ++
        [(if e.rt_clock < until_ then until_ - e.rt_clock else 0,
          e.next_timer_id)] ∧
      e'.timer_resolvers = btreeInsert e.next_timer_id r e.timer_resolvers ∧
      btreeLookup e.next_timer_id e'.timer_resolvers = some r :=
  ⟨_, rfl, rfl, rfl, rfl, btreeLookup_insert_self _ _ _⟩

/-- Witness for C5: issuing a sleep until timestamp 10 with the clock at 3
schedules a 7-unit wait under id 0 and records resolver 9 at id 0. -/
theorem sleep_op_schedules_clamped_wait_witness :
    ∃ e', start_async_op (TestEnvironment.new 3) (.sleep "sleepUntil" 10) 9 =
        .ok e' ∧
      e'.next_timer_id = (TestEnvironment.new 3).next_timer_id + 1 ∧
      e'.timers = (TestEnvironment.new 3).timers ++
        [(if (TestEnvironment.new 3).rt_clock < 10 then
            10 - (TestEnvironment.new 3).rt_clock else 0,
          (TestEnvironment.new 3).next_timer_id)] ∧
      e'.timer_resolvers = btreeInsert (TestEnvironment.new 3).next_timer_id 9
        (TestEnvironment.new 3).timer_resolvers ∧
      btreeLookup (TestEnvironment.new 3).next_timer_id e'.timer_resolvers =
        some 9 :=
  sleep_op_schedules_clamped_wait (TestEnvironment.new 3) "sleepUntil" 10 9

/-- C6: an async operation of a kind the environment does not implement, and
likewise any async syscall, is logged and silently dropped: the call returns
`Ok(())`, the environment state is untouched (so no pending slot is recorded
and no completion can ever be delivered for it). -/
theorem unrecognized_requests_logged_and_dropped (e : TestEnvironment)
    (desc nm : String) (r a r2 : Nat) :
    start_async_op e (.other desc) r = .ok e ∧
    start_async_syscall e nm a r2 = .ok e :=
  ⟨rfl, rfl⟩

/-- C7: `next_timer` suspends its caller until some pending operation's wait
finishes, delivering that operation's completion (the resolver recorded under
the completed timer's id, which is removed); when the pending table is empty
it suspends forever and never returns. -/
theorem next_timer_suspends_until_completion (e : TestEnvironment) :
    (e.timers = [] → next_timer e = NextTimerOutcome.pendingForever) ∧
    (e.timers ≠ [] → next_timer e ≠ NextTimerOutcome.pendingForever) ∧
    (∀ t rest, joinNext e.timers = some (t, rest) →
      t ∈ e.timers ∧
      ∀ r, btreeLookup t.2 e.timer_resolvers = some r →
        next_timer e = NextTimerOutcome.ok r
          { e with timers := rest,
                   timer_resolvers := btreeErase t.2 e.timer_resolvers }) := by
  refine ⟨?_, ?_, ?_⟩
  · intro h
    simp [next_timer, joinNext, h, minBy1]
  · intro h hcontra
    simp only [next_timer] at hcontra
    cases hj : joinNext e.timers with
    | none => exact h ((joinNext_eq_none_iff _).mp hj)
    | some p =>
      obtain ⟨t, rest⟩ := p
      cases hl : btreeLookup t.2 e.timer_resolvers with
      | none => simp [hj, hl] at hcontra
      | some r => simp [hj, hl] at hcontra
  · intro t rest hj
    refine ⟨(joinNext_some hj).1, fun r hr => ?_⟩
    simp [next_timer, hj, hr]

/-- Witness for C7: a fresh environment (no pending timers) suspends forever;
an environment with one pending timer under id 0 and resolver 7 recorded at
id 0 delivers resolver 7 and clears both tables. -/
theorem next_timer_suspends_until_completion_witness :
    next_timer (TestEnvironment.new 0) = NextTimerOutcome.pendingForever ∧
    next_timer (TestEnvironment.mk 0 (chachaFromSeed zeroSeed) 1
        [(5, 0)] [(0, 7)]) =
      NextTimerOutcome.ok 7 (TestEnvironment.mk 0 (chachaFromSeed zeroSeed) 1
        [] []) := by
  constructor
  · exact (next_timer_suspends_until_completion (TestEnvironment.new 0)).1 rfl
  · exact ((next_timer_suspends_until_completion
      (TestEnvironment.mk 0 (chachaFromSeed zeroSeed) 1 [(5, 0)] [(0, 7)])).2.2
      (5, 0) [] (by decide)).2 7 (by decide)

/-- C8: when the completed timer's id has no entry in the pending-resolver
table, `next_timer` fails with the "Timer resolver not found" error rather
than silently ignoring the completion. -/
theorem completion_unknown_id_is_error (e : TestEnvironment) (t : Nat × Nat)
    (rest : List (Nat × Nat)) (hj : joinNext e.timers = some (t, rest))
    (hl : btreeLookup t.2 e.timer_resolvers = none) :
    next_timer e = NextTimerOutcome.error "Timer resolver not found" := by
  simp [next_timer, hj, hl]

/-- Witness for C8: an environment with a pending timer under id 0 but an
empty resolver table fails with the internal-consistency error. -/
theorem completion_unknown_id_is_error_witness :
    next_timer (TestEnvironment.mk 0 (chachaFromSeed zeroSeed) 1 [(5, 0)] []) =
      NextTimerOutcome.error "Timer resolver not found" :=
  completion_unknown_id_is_error
    (TestEnvironment.mk 0 (chachaFromSeed zeroSeed) 1 [(5, 0)] []) (5, 0) []
    (by decide) (by decide)

/-- C9: the environment's logical clock is a single timestamp representing
"now" for the attempt: `TestEnvironment::new` derives it from the host time
source at attempt start, `unix_timestamp` reads it, and across any attempt
content containing no mediated timer completion the clock never advances —
every read returns the value fixed at attempt start. -/
theorem logical_clock_stable_per_attempt (block : List Nat → Nat → Nat)
    (c : Nat) (evs : List Event)
    (h : ∀ ev ∈ evs, advancesClock ev = false) :
    (TestEnvironment.new c).rt_clock = c ∧
    unix_timestamp (TestEnvironment.new c) = Except.ok c ∧
    ((run block evs (TestEnvironment.new c)).2).rt_clock = c ∧
    (∀ n, Output.clockValue n ∈ (run block evs (TestEnvironment.new c)).1 →
      n = c) := by
  refine ⟨rfl, rfl, ?_, ?_⟩
  · rw [run_clock_stable block evs _ h]
    rfl
  · intro n hn
    exact run_clock_outputs block evs _ h n hn

/-- Witness for C9: an attempt that reads the clock, draws randomness, starts
a sleep and reads the clock again never sees the clock move from its starting
value 42. -/
theorem logical_clock_stable_per_attempt_witness :
    (TestEnvironment.new 42).rt_clock = 42 ∧
    unix_timestamp (TestEnvironment.new 42) = Except.ok 42 ∧
    ((run (fun _ _ => 0)
        [Event.readClock, Event.rngDraw, Event.startSleep "sleepUntil" 99 1,
          Event.readClock]
        (TestEnvironment.new 42)).2).rt_clock = 42 ∧
    (∀ n, Output.clockValue n ∈ (run (fun _ _ => 0)
        [Event.readClock, Event.rngDraw, Event.startSleep "sleepUntil" 99 1,
          Event.readClock]
        (TestEnvironment.new 42)).1 → n = 42) :=
  logical_clock_stable_per_attempt (fun _ _ => 0) 42
    [Event.readClock, Event.rngDraw, Event.startSleep "sleepUntil" 99 1,
      Event.readClock]
    (by intro ev hev; fin_cases hev <;> rfl)

/-- C10: completions are delivered at most once. In a well-formed environment
the next allocated timer id is fresh (no pending sleep and no recorded
resolver uses it, since ids come from a strictly increasing counter),
issuing a sleep preserves well-formedness, and when `next_timer` delivers a
completion it removes the completed id from both the join set and the
resolver table — afterwards neither holds that id, so a second delivery for
it could only hit the resolver-not-found error. -/
theorem timer_ids_fresh_and_single_delivery (e : TestEnvironment)
    (hwf : Wf e) :
    (e.next_timer_id ∉ timerIds e ∧
      btreeLookup e.next_timer_id e.timer_resolvers = none) ∧
    (∀ name u r e', start_async_op e (.sleep name u) r = Except.ok e' →
      Wf e') ∧
    (∀ r e', next_timer e = NextTimerOutcome.ok r e' →
      Wf e' ∧ ∃ t rest, joinNext e.timers = some (t, rest) ∧
        t.2 ∉ timerIds e' ∧ btreeLookup t.2 e'.timer_resolvers = none) := by
  obtain ⟨hb1, hn1, hb2, hn2⟩ := hwf
  refine ⟨⟨?_, ?_⟩, ?_, ?_⟩
  · intro hmem
    obtain ⟨t, ht, hts⟩ := List.mem_map.mp hmem
    exact absurd (hts ▸ hb1 t ht) (lt_irrefl _)
  · apply btreeLookup_eq_none_of_not_mem
    intro hmem
    obtain ⟨kv, hkv, hfst⟩ := List.mem_map.mp hmem
    exact absurd (hfst ▸ hb2 kv hkv) (lt_irrefl _)
  · intro name u r e' h
    simp only [start_async_op, Except.ok.injEq] at h
    subst h
    refine ⟨?_, ?_, ?_, ?_⟩
    · intro t ht
      rcases List.mem_append.mp ht with h' | h'
      · exact Nat.lt_succ_of_lt (hb1 t h')
      · simp at h'
        rw [h']
        exact Nat.lt_succ_self _
    · simp only [timerIds, List.map_append]
      rw [List.nodup_append]
      refine ⟨hn1, List.nodup_singleton _, ?_⟩
      intro x hx hx'
      simp at hx'
      obtain ⟨t, ht, hts⟩ := List.mem_map.mp hx
      rw [hx'] at hts
      exact absurd (hts ▸ hb1 t ht) (lt_irrefl _)
    · intro kv hkv
      rcases mem_btreeInsert _ _ _ kv hkv with h' | h'
      · simp [h']
      · exact Nat.lt_succ_of_lt (hb2 kv h')
    · exact nodup_keys_btreeInsert _ _ _ hn2
  · intro r e' h
    simp only [next_timer] at h
    cases hj : joinNext e.timers with
    | none => simp [hj] at h
    | some p =>
      obtain ⟨t, rest⟩ := p
      obtain ⟨htmem, hrest⟩ := joinNext_some hj
      cases hl : btreeLookup t.2 e.timer_resolvers with
      | none => simp [hj, hl] at h
      | some r0 =>
        simp [hj, hl] at h
        obtain ⟨hr0, he'⟩ := h
        subst he'
        refine ⟨⟨?_, ?_, ?_, ?_⟩, t, rest, rfl, ?_, ?_⟩
        · intro u hu
          rw [hrest] at hu
          exact hb1 u (List.mem_of_mem_erase hu)
        · simp only [timerIds, hrest]
          exact hn1.sublist ((List.erase_sublist t e.timers).map Prod.snd)
        · intro kv hkv
          exact hb2 kv (mem_btreeErase _ _ kv hkv)
        · exact nodup_keys_btreeErase _ _ hn2
        · simp only [timerIds, hrest]
          exact snd_not_mem_erase hn1 htmem
        · exact btreeLookup_erase_self _ _ hn2

/-- Witness for C10: a well-formed environment with two pending sleeps (ids 0
and 1, resolvers 7 and 9): the next id 2 is fresh on both tables. -/
theorem timer_ids_fresh_and_single_delivery_witness :
    2 ∉ timerIds (TestEnvironment.mk 0 (chachaFromSeed zeroSeed) 2
        [(5, 0), (3, 1)] [(0, 7), (1, 9)]) ∧
    btreeLookup 2 (TestEnvironment.mk 0 (chachaFromSeed zeroSeed) 2
        [(5, 0), (3, 1)] [(0, 7), (1, 9)]).timer_resolvers = none :=
  (timer_ids_fresh_and_single_delivery
    (TestEnvironment.mk 0 (chachaFromSeed zeroSeed) 2
      [(5, 0), (3, 1)] [(0, 7), (1, 9)]) (by decide)).1

end Convex
